import Mathlib

/-!
Verification of the RSS-to-Telegram pipeline (files rss_to_telegram.py and
Python_code.py): tokenizer, similarity scorer, summarizer, context selector,
summary composer, state ledger and delivery scheduler, shallowly embedded in
Lean.  Strings are modelled as Lean strings (sequences of characters, as in
Python), floats produced by the similarity division are modelled as exact
rationals, and the external collaborators (message sink, clock, JSON codec,
filesystem) are passed in as explicit parameters.
-/

namespace RSSTel

/-- Whitespace characters recognised by the str.strip and regex \s rules of
the source: space, tab, newline, carriage return, vertical tab, form feed. -/
def pyIsSpace (c : Char) : Bool :=
  c == ' ' || c == '\t' || c == '\n' || c == '\r' || c == '\x0b' || c == '\x0c'

/-- Models str.lstrip with no argument: drop leading whitespace. -/
def pyLstripL (l : List Char) : List Char := l.dropWhile pyIsSpace

/-- Models str.rstrip with no argument: drop trailing whitespace. -/
def pyRstripL (l : List Char) : List Char := (l.reverse.dropWhile pyIsSpace).reverse

/-- Models str.strip with no argument: drop whitespace on both ends. -/
def pyStripL (l : List Char) : List Char := pyRstripL (pyLstripL l)

/-- Models str.strip on Lean strings. -/
def pyStrip (s : String) : String := String.mk (pyStripL s.data)

/-- Word characters of the regex \w used by WORD_RE: letters, digits and
the underscore. -/
def isWordChar (c : Char) : Bool := c.isAlphanum || c == '_'

/-- Accumulator-passing scanner behind WORD_RE.findall: collects the maximal
runs of word characters.  acc holds the current run, reversed. -/
def wordRunsAux (acc : List Char) : List Char → List (List Char)
  | [] => if acc.isEmpty then [] else [acc.reverse]
  | c :: rest =>
    if isWordChar c then wordRunsAux (c :: acc) rest
    else if acc.isEmpty then wordRunsAux [] rest
    else acc.reverse :: wordRunsAux [] rest

/-- Models WORD_RE.findall(text): the maximal runs of word characters. -/
def wordRuns (s : String) : List (List Char) := wordRunsAux [] s.data

/-- Models text_to_tokens: the set of lower-cased words of the text
(source lines rss_to_telegram.py:35-36 and Python_code.py:14-15). -/
def text_to_tokens (s : String) : Finset String :=
  ((wordRuns s).map (fun w => String.mk (w.map Char.toLower))).toFinset

/-- Models simple_similarity (rss_to_telegram.py:39-44, Python_code.py:18-23):
zero if either token set is empty, otherwise intersection size over the sum
of the two set sizes, as an exact rational. -/
def simple_similarity (a b : String) : ℚ :=
  if text_to_tokens a = ∅ ∨ text_to_tokens b = ∅ then 0
  else mkRat ((text_to_tokens a ∩ text_to_tokens b).card)
    ((text_to_tokens a).card + (text_to_tokens b).card)

/-- Sentence-ending characters of the split pattern: period, bang, question
mark. -/
def isSentEnd (c : Char) : Bool := c == '.' || c == '!' || c == '?'

/-- Whether a character list starts with a whitespace character. -/
def headSpace : List Char → Bool
  | [] => false
  | d :: _ => pyIsSpace d

/-- Scanner for re.split with the pattern matching a whitespace run that is
preceded by a sentence-ending character: a maximal whitespace run right after
one of . ! ? separates sentences and is dropped.  acc holds the current
sentence, reversed; skip is true while consuming such a separator run. -/
def splitSentencesAux (skip : Bool) (acc : List Char) :
    List Char → List (List Char)
  | [] => [acc.reverse]
  | c :: rest =>
    if skip && pyIsSpace c then splitSentencesAux true [] rest
    else if isSentEnd c && headSpace rest then
      (c :: acc).reverse :: splitSentencesAux true [] rest
    else splitSentencesAux false (c :: acc) rest

/-- Models re.split of the sentence-boundary pattern over the stripped text. -/
def splitSentences (s : String) : List (List Char) :=
  splitSentencesAux false [] (pyStripL s.data)

/-- Joins character lists with a single space: models the space join of the
first sentences. -/
def joinSpace : List (List Char) → List Char
  | [] => []
  | [w] => w
  | w :: rest => w ++ ' ' :: joinSpace rest

/-- The three-sentence join computed inside summarize_text before the length
test: first three sentences of the stripped text, joined by single spaces. -/
def sentenceJoin (text : String) : String :=
  String.mk (joinSpace ((splitSentences text).take 3))

/-- Models summarize_text (rss_to_telegram.py:47-54, Python_code.py:26-33):
empty text gives the empty string; otherwise the three-sentence join, and when
that exceeds max_chars, its first max_chars characters with trailing
whitespace stripped, with an ellipsis appended. -/
def summarize_text (text : String) (max_chars : Nat) : String :=
  if text = "" then ""
  else if max_chars < (sentenceJoin text).length then
    String.mk (pyRstripL ((sentenceJoin text).data.take max_chars)) ++ "..."
  else sentenceJoin text

/-! ### Stable descending sort

Python's list.sort(key=k, reverse=True) sorts descending by the key and is
stable: elements with equal keys keep their relative input order.  The
insertion sort below places each element before the first element of the
already-sorted suffix whose key is less than or equal to its own, which is
exactly that order. -/

/-- Insert a before the first element of l whose key is ≤ key a. -/
def ordInsertDesc {α β : Type} [LinearOrder β] (key : α → β) (a : α) :
    List α → List α
  | [] => [a]
  | b :: l => if key b ≤ key a then a :: b :: l else b :: ordInsertDesc key a l

/-- Stable descending insertion sort by a key, models
list.sort(key=..., reverse=True). -/
def sortDescBy {α β : Type} [LinearOrder β] (key : α → β) : List α → List α
  | [] => []
  | a :: l => ordInsertDesc key a (sortDescBy key l)

/-! ### Data model -/

/-- A normalized feed entry as produced by parse_entry
(rss_to_telegram.py:85-92): every field defaults to the empty string when the
raw feed entry lacks it. -/
structure Article where
  id : String
  title : String
  link : String
  summary : String
  published : String
deriving DecidableEq

/-- A history record as appended by the delivery loop
(rss_to_telegram.py:155-162). -/
structure HistoryRecord where
  id : String
  title : String
  summary : String
  link : String
  published : String
  sent_at : String
deriving DecidableEq

/-- The persisted state: seen_ids list and articles list
(rss_to_telegram.py:27, 165-166). -/
structure PyState where
  seen_ids : List String
  articles : List HistoryRecord
deriving DecidableEq

/-! ### Context selector and summary composer (build_rag_summary) -/

/-- The query text of build_rag_summary: title, space, summary. -/
def newTextOf (a : Article) : String := a.title ++ " " ++ a.summary

/-- The text a history record is scored by: title, space, summary. -/
def histTextOf (h : HistoryRecord) : String := h.title ++ " " ++ h.summary

/-- The scores list of build_rag_summary (rss_to_telegram.py:61-64): one
(similarity, record) pair per history record, in history order. -/
def scoredPairs (a : Article) (history : List HistoryRecord) :
    List (ℚ × HistoryRecord) :=
  history.map (fun h => (simple_similarity (newTextOf a) (histTextOf h), h))

/-- The context selection of build_rag_summary (rss_to_telegram.py:65-66,
Python_code.py:45-46): stable descending sort by score, take the first topK,
keep only strictly positive scores. -/
def selectContext (a : Article) (history : List HistoryRecord) (topK : Nat) :
    List HistoryRecord :=
  (((sortDescBy Prod.fst (scoredPairs a history)).take topK).filter
    (fun x => decide ((0 : ℚ) < x.1))).map Prod.snd

/-- The non-empty titles of the selected context records, in context order
(rss_to_telegram.py:71). -/
def relTitles (ctx : List HistoryRecord) : List String :=
  (ctx.map (fun c => c.title)).filter (fun t => decide (t ≠ ""))

/-- The related-titles suffix built from the first two non-empty context
titles (rss_to_telegram.py:73). -/
def suffixOf (ctx : List HistoryRecord) : String :=
  "Related to: " ++ String.intercalate "; " ((relTitles ctx).take 2)

/-- The composition step of build_rag_summary (rss_to_telegram.py:68-76):
base extract of the body, plus the related-titles suffix only when context
with non-empty titles exists and the budget test passes. -/
def compose (a : Article) (ctx : List HistoryRecord) : String :=
  if ctx = [] then summarize_text a.summary 300
  else if relTitles ctx = [] then summarize_text a.summary 300
  else if (summarize_text a.summary 300).length + (suffixOf ctx).length + 3
      < 350 then
    summarize_text a.summary 300 ++ " | " ++ suffixOf ctx
  else summarize_text a.summary 300

/-- Models build_rag_summary: context selection followed by composition. -/
def build_rag_summary (a : Article) (history : List HistoryRecord)
    (topK : Nat) : String :=
  compose a (selectContext a history topK)

/-! ### Delivery scheduler (run_rss_to_telegram)

The message sink is a parameter String → Bool returning the resp.ok flag of
send_telegram_message; the source logs a failure and carries on, ignoring the
flag for state purposes.  The clock is a parameter giving the sent_at string
of the k-th delivery of the run. -/

/-- The message text assembled from title, summary and link
(rss_to_telegram.py:139-149): stripped title and link, non-empty lines only,
joined by blank lines. -/
def composeMessage (a : Article) (rag : String) : String :=
  let title := pyStrip a.title
  let link := pyStrip a.link
  String.intercalate "\n\n"
    ((if title ≠ "" then [("Title: " ++ title)] else []) ++
     (if rag ≠ "" then [("Summary: " ++ rag)] else []) ++
     (if link ≠ "" then [("Link: " ++ link)] else []))

/-- What the delivery loop has produced when it stops: the grown seen set and
history, the number sent, the articles attempted (in order) and the sink's
reported result for each attempt. -/
structure LoopOut where
  seen : Finset String
  history : List HistoryRecord
  count : Nat
  delivered : List Article
  sinkResults : List Bool

/-- The delivery loop of run_rss_to_telegram (rss_to_telegram.py:134-163):
stops once count reaches maxPerRun; otherwise builds the RAG summary against
the current history, sends, then unconditionally marks the id seen and
appends the history record. -/
def runLoop (sink : String → Bool) (sentAtOf : Nat → String) (maxPerRun : Nat) :
    List Article → Finset String → List HistoryRecord → Nat → LoopOut
  | [], seen, history, count => ⟨seen, history, count, [], []⟩
  | a :: rest, seen, history, count =>
    if maxPerRun ≤ count then ⟨seen, history, count, [], []⟩
    else
      let rag := build_rag_summary a history 3
      let ok := sink (composeMessage a rag)
      let newRec : HistoryRecord :=
        ⟨a.id, pyStrip a.title, rag, pyStrip a.link, a.published, sentAtOf count⟩
      let r := runLoop sink sentAtOf maxPerRun rest (insert a.id seen)
        (history ++ [newRec]) (count + 1)
      ⟨r.seen, r.history, r.count, a :: r.delivered, ok :: r.sinkResults⟩

/-- The observable outcome of one run: final ledger content, deliveries, and
how many times the state was persisted. -/
structure RunResult where
  finalSeen : Finset String
  finalHistory : List HistoryRecord
  delivered : List Article
  sinkResults : List Bool
  sentCount : Nat
  saveCount : Nat

/-- The sort key of the scheduler, models parse_pub (rss_to_telegram.py:129-
130): the raw published string (the falsy empty string maps to itself), as
its character list, whose lexicographic order is exactly the code-point
string comparison Python applies to the raw timestamp field. -/
def pubKey (a : Article) : List Char := a.published.data

/-- The unseen filter of the scheduler (rss_to_telegram.py:123): fetched
articles whose id is not in the seen set. -/
def unseenOf (state : PyState) (allNew : List Article) : List Article :=
  allNew.filter (fun a => decide (a.id ∉ state.seen_ids.toFinset))

/-- Models run_rss_to_telegram (rss_to_telegram.py:117-168): load the seen
set and history from the state, filter the fetched articles to unseen ones,
return early (without saving) when none, otherwise sort unseen descending by
the raw published string, run the delivery loop, and save once. -/
def run_rss_to_telegram (sink : String → Bool) (sentAtOf : Nat → String)
    (maxPerRun : Nat) (state : PyState) (allNew : List Article) : RunResult :=
  if unseenOf state allNew = [] then
    ⟨state.seen_ids.toFinset, state.articles, [], [], 0, 0⟩
  else
    let r := runLoop sink sentAtOf maxPerRun
      (sortDescBy pubKey (unseenOf state allNew))
      state.seen_ids.toFinset state.articles 0
    ⟨r.seen, r.history, r.delivered, r.sinkResults, r.count, 1⟩

/-! ### State loading -/

/-- Models load_state (rss_to_telegram.py:23-27).  The filesystem is an
Option String (none when no state file exists) and json.load is an explicit
decode collaborator whose failure (an exception in the source, which
load_state does not catch) is an Except.error. -/
def load_state (file : Option String)
    (decode : String → Except String PyState) : Except String PyState :=
  match file with
  | some s => decode s
  | none => Except.ok ⟨[], []⟩

/-- The serialized form of the empty ledger, as save_state would write it. -/
def emptyLedgerJSON : String := "\x7b\"seen_ids\": [], \"articles\": []\x7d"

/-- Modelled from the spec: the json.load collaborator (not part of this
repository) applied to a state file; per the persisted-ledger format of the
spec it yields the empty ledger on the serialized empty ledger and fails on
anything else (a stand-in corrupt file). -/
def jsonDecodeModel : String → Except String PyState :=
  fun s => if s = emptyLedgerJSON then Except.ok ⟨[], []⟩
    else Except.error "corrupt state file"

/-! ### Concrete inputs used by scenarios, witnesses and counterexamples -/

/-- An article with a short body, used to exercise the composer. -/
def artW : Article := ⟨"w", "T", "", "Body text here.", "p"⟩

/-- A history record whose title is empty. -/
def recNoTitle : HistoryRecord := ⟨"h1", "", "s", "", "", ""⟩

/-- A history record with a 400-character title, long enough to make the
composer budget test fail. -/
def recLongTitle : HistoryRecord :=
  ⟨"h2", String.mk (List.replicate 400 'a'), "s", "", "", ""⟩

/-- Scenario article published first. -/
def scenA1 : Article := ⟨"1", "A", "", "one.", "2024-01-01"⟩

/-- Scenario article published last. -/
def scenA2 : Article := ⟨"2", "B", "", "two.", "2024-01-03"⟩

/-- Scenario article published in between. -/
def scenA3 : Article := ⟨"3", "C", "", "three.", "2024-01-02"⟩

/-- A message sink whose requests all succeed. -/
def alwaysOkSink : String → Bool := fun _ => true

/-- A message sink whose requests all fail (resp.ok is false). -/
def alwaysFailSink : String → Bool := fun _ => false

/-- A constant clock for sent_at stamps. -/
def constClock : Nat → String := fun _ => "2024-01-04T00:00:00"

/-- The maxPerRun = 2, three-unseen-entries scenario run. -/
def scenarioRun : RunResult :=
  run_rss_to_telegram alwaysOkSink constClock 2 ⟨[], []⟩ [scenA1, scenA2, scenA3]

/-- One fresh entry delivered through a failing sink. -/
def failRun : RunResult :=
  run_rss_to_telegram alwaysFailSink constClock 5 ⟨[], []⟩
    [⟨"a1", "T", "", "Some body.", "2024"⟩]

/-- A run in which the only fetched article is already seen, so the unseen
list is empty. -/
def noUnseenRun : RunResult :=
  run_rss_to_telegram alwaysOkSink constClock 5 ⟨["x"], []⟩
    [⟨"x", "T", "", "body.", "2024"⟩]

/-- The article of the idempotence witness. -/
def c8Article : Article := ⟨"b1", "T", "", "body.", "2024"⟩

/-- First run of the idempotence witness: one fresh article, delivered. -/
def c8FirstRun : RunResult :=
  run_rss_to_telegram alwaysOkSink constClock 5 ⟨[], []⟩ [c8Article]

/-! ### Lemmas about the stable descending sort -/

theorem mem_ordInsertDesc {α β : Type} [LinearOrder β] (key : α → β) (a x : α)
    (l : List α) : x ∈ ordInsertDesc key a l ↔ x = a ∨ x ∈ l := by
  induction l with
  | nil => simp [ordInsertDesc]
  | cons b t ih =>
    unfold ordInsertDesc
    by_cases h : key b ≤ key a
    · simp [h]
    · simp only [if_neg h, List.mem_cons, ih]
      tauto

theorem ordInsertDesc_perm {α β : Type} [LinearOrder β] (key : α → β) (a : α)
    (l : List α) : List.Perm (ordInsertDesc key a l) (a :: l) := by
  induction l with
  | nil => exact List.Perm.refl _
  | cons b t ih =>
    unfold ordInsertDesc
    by_cases h : key b ≤ key a
    · simp [h]
    · simp only [if_neg h]
      exact (ih.cons b).trans (List.Perm.swap a b t)

theorem sortDescBy_perm {α β : Type} [LinearOrder β] (key : α → β)
    (l : List α) : List.Perm (sortDescBy key l) l := by
  induction l with
  | nil => exact List.Perm.refl _
  | cons a t ih =>
    unfold sortDescBy
    exact (ordInsertDesc_perm key a _).trans (ih.cons a)

theorem ordInsertDesc_pairwise {α β : Type} [LinearOrder β] (key : α → β)
    (a : α) (l : List α) (h : List.Pairwise (fun x y => key y ≤ key x) l) :
    List.Pairwise (fun x y => key y ≤ key x) (ordInsertDesc key a l) := by
  induction l with
  | nil => simp [ordInsertDesc]
  | cons b t ih =>
    rw [List.pairwise_cons] at h
    unfold ordInsertDesc
    by_cases hba : key b ≤ key a
    · rw [if_pos hba, List.pairwise_cons]
      refine ⟨?_, List.pairwise_cons.mpr h⟩
      intro y hy
      rcases List.mem_cons.mp hy with rfl | hyt
      · exact hba
      · exact (h.1 y hyt).trans hba
    · rw [if_neg hba, List.pairwise_cons]
      refine ⟨?_, ih h.2⟩
      intro y hy
      rcases (mem_ordInsertDesc key a y t).mp hy with rfl | hyt
      · exact le_of_not_le hba
      · exact h.1 y hyt

theorem sortDescBy_pairwise {α β : Type} [LinearOrder β] (key : α → β)
    (l : List α) :
    List.Pairwise (fun x y => key y ≤ key x) (sortDescBy key l) := by
  induction l with
  | nil => simp [sortDescBy]
  | cons a t ih =>
    unfold sortDescBy
    exact ordInsertDesc_pairwise key a _ ih

theorem ordInsertDesc_filter_key {α β : Type} [LinearOrder β] [DecidableEq β]
    (key : α → β) (c : β) (a : α) (l : List α) :
    (ordInsertDesc key a l).filter (fun x => decide (key x = c)) =
      if key a = c then a :: l.filter (fun x => decide (key x = c))
      else l.filter (fun x => decide (key x = c)) := by
  induction l with
  | nil => by_cases hac : key a = c <;> simp [ordInsertDesc, hac]
  | cons b t ih =>
    unfold ordInsertDesc
    by_cases hba : key b ≤ key a
    · rw [if_pos hba]
      by_cases hac : key a = c <;> simp [List.filter_cons, hac]
    · rw [if_neg hba, List.filter_cons, ih]
      by_cases hac : key a = c
      · have hbc : ¬ (key b = c) := fun hbc => hba (le_of_eq (hbc.trans hac.symm))
        simp [hac, hbc, List.filter_cons]
      · simp [hac, List.filter_cons]

theorem sortDescBy_filter_key {α β : Type} [LinearOrder β] [DecidableEq β]
    (key : α → β) (c : β) (l : List α) :
    (sortDescBy key l).filter (fun x => decide (key x = c)) =
      l.filter (fun x => decide (key x = c)) := by
  induction l with
  | nil => rfl
  | cons a t ih =>
    unfold sortDescBy
    rw [ordInsertDesc_filter_key]
    by_cases hac : key a = c <;> simp [hac, List.filter_cons, ih]

/-! ### Lemmas about the delivery loop and the run -/

theorem runLoop_delivered (sink : String → Bool) (ts : Nat → String)
    (m : Nat) (l : List Article) (seen : Finset String)
    (hist : List HistoryRecord) (c : Nat) :
    (runLoop sink ts m l seen hist c).delivered = l.take (m - c) := by
  induction l generalizing seen hist c with
  | nil => simp [runLoop]
  | cons a rest ih =>
    by_cases h : m ≤ c
    · simp [runLoop, if_pos h, Nat.sub_eq_zero_of_le h]
    · have hm : m - c = (m - (c + 1)) + 1 := by omega
      simp only [runLoop, if_neg h, ih, hm, List.take_succ_cons]

theorem runLoop_count (sink : String → Bool) (ts : Nat → String)
    (m : Nat) (l : List Article) (seen : Finset String)
    (hist : List HistoryRecord) (c : Nat) :
    (runLoop sink ts m l seen hist c).count = c + (l.take (m - c)).length := by
  induction l generalizing seen hist c with
  | nil => simp [runLoop]
  | cons a rest ih =>
    by_cases h : m ≤ c
    · simp [runLoop, if_pos h, Nat.sub_eq_zero_of_le h]
    · have hm : m - c = (m - (c + 1)) + 1 := by omega
      simp only [runLoop, if_neg h, ih, hm, List.take_succ_cons,
        List.length_cons]
      omega

theorem runLoop_seen (sink : String → Bool) (ts : Nat → String)
    (m : Nat) (l : List Article) (seen : Finset String)
    (hist : List HistoryRecord) (c : Nat) :
    (runLoop sink ts m l seen hist c).seen =
      seen ∪ ((l.take (m - c)).map Article.id).toFinset := by
  induction l generalizing seen hist c with
  | nil => simp [runLoop]
  | cons a rest ih =>
    by_cases h : m ≤ c
    · simp [runLoop, if_pos h, Nat.sub_eq_zero_of_le h]
    · have hm : m - c = (m - (c + 1)) + 1 := by omega
      simp only [runLoop, if_neg h, ih, hm, List.take_succ_cons,
        List.map_cons, List.toFinset_cons]
      rw [Finset.insert_union, Finset.union_insert]

theorem runLoop_history_length (sink : String → Bool) (ts : Nat → String)
    (m : Nat) (l : List Article) (seen : Finset String)
    (hist : List HistoryRecord) (c : Nat) :
    (runLoop sink ts m l seen hist c).history.length =
      hist.length + (l.take (m - c)).length := by
  induction l generalizing seen hist c with
  | nil => simp [runLoop]
  | cons a rest ih =>
    by_cases h : m ≤ c
    · simp [runLoop, if_pos h, Nat.sub_eq_zero_of_le h]
    · have hm : m - c = (m - (c + 1)) + 1 := by omega
      simp only [runLoop, if_neg h, ih, hm, List.take_succ_cons,
        List.length_cons, List.length_append, List.length_singleton,
        List.length_nil]
      omega

theorem run_delivered_eq (sink : String → Bool) (ts : Nat → String)
    (m : Nat) (state : PyState) (allNew : List Article) :
    (run_rss_to_telegram sink ts m state allNew).delivered =
      (sortDescBy pubKey (unseenOf state allNew)).take m := by
  unfold run_rss_to_telegram
  by_cases h : unseenOf state allNew = []
  · rw [if_pos h, h]
    simp [sortDescBy]
  · rw [if_neg h]
    simpa using runLoop_delivered sink ts m _ _ _ 0

theorem run_count_eq (sink : String → Bool) (ts : Nat → String)
    (m : Nat) (state : PyState) (allNew : List Article) :
    (run_rss_to_telegram sink ts m state allNew).sentCount =
      ((sortDescBy pubKey (unseenOf state allNew)).take m).length := by
  unfold run_rss_to_telegram
  by_cases h : unseenOf state allNew = []
  · rw [if_pos h, h]
    simp [sortDescBy]
  · rw [if_neg h]
    simpa using runLoop_count sink ts m _ _ _ 0

theorem run_seen_eq (sink : String → Bool) (ts : Nat → String)
    (m : Nat) (state : PyState) (allNew : List Article) :
    (run_rss_to_telegram sink ts m state allNew).finalSeen =
      state.seen_ids.toFinset ∪
        ((((sortDescBy pubKey (unseenOf state allNew)).take m)).map
          Article.id).toFinset := by
  unfold run_rss_to_telegram
  by_cases h : unseenOf state allNew = []
  · rw [if_pos h, h]
    simp [sortDescBy]
  · rw [if_neg h]
    simpa using runLoop_seen sink ts m _ _ _ 0

theorem run_history_length (sink : String → Bool) (ts : Nat → String)
    (m : Nat) (state : PyState) (allNew : List Article) :
    (run_rss_to_telegram sink ts m state allNew).finalHistory.length =
      state.articles.length +
        ((sortDescBy pubKey (unseenOf state allNew)).take m).length := by
  unfold run_rss_to_telegram
  by_cases h : unseenOf state allNew = []
  · rw [if_pos h, h]
    simp [sortDescBy]
  · rw [if_neg h]
    simpa using runLoop_history_length sink ts m _ _ _ 0

theorem run_saveCount (sink : String → Bool) (ts : Nat → String)
    (m : Nat) (state : PyState) (allNew : List Article) :
    (run_rss_to_telegram sink ts m state allNew).saveCount =
      if unseenOf state allNew = [] then 0 else 1 := by
  unfold run_rss_to_telegram
  by_cases h : unseenOf state allNew = [] <;> simp [h]

/-! ### Lemmas about the summarizer -/

theorem pyRstripL_length_le (l : List Char) : (pyRstripL l).length ≤ l.length := by
  unfold pyRstripL
  rw [List.length_reverse]
  calc (l.reverse.dropWhile pyIsSpace).length
      ≤ l.reverse.length := (List.dropWhile_sublist _).length_le
    _ = l.length := List.length_reverse l

theorem sentenceJoin_empty : sentenceJoin "" = "" := rfl

/-! ### Claims -/

/-- Claim C3, counterexample: for the text of two words separated by six
spaces and maxChars 5, the three-sentence join has 10 characters, so
truncation occurs, yet the truncated result before the appended ellipsis is
the 2-character string ab, shorter than maxChars = 5 — trailing whitespace
is stripped after the cut, taking the result below maxChars. -/
theorem C3_counterexample :
    5 < (sentenceJoin ("ab      cd")).length
    ∧ summarize_text ("ab      cd") 5 = ("ab...")
    ∧ (pyRstripL ((sentenceJoin ("ab      cd")).data.take 5)).length < 5 := by
  decide

/-- Claim C3 (amended): for every text t and maxChars N the summarizer output
never exceeds N + 3 characters; when the three-sentence join exceeds N the
result is the first N characters with trailing whitespace stripped, followed
by the three-character ellipsis — so the part before the ellipsis may be
shorter than N. -/
theorem C3_summarizer_bound (t : String) (N : Nat) :
    (summarize_text t N).length ≤ N + 3
    ∧ (N < (sentenceJoin t).length →
        summarize_text t N =
          String.mk (pyRstripL ((sentenceJoin t).data.take N)) ++ "...") := by
  constructor
  · unfold summarize_text
    by_cases h1 : t = ""
    · simp [h1]
    · rw [if_neg h1]
      by_cases h2 : N < (sentenceJoin t).length
      · rw [if_pos h2]
        rw [String.length_append]
        have hr : (String.mk (pyRstripL ((sentenceJoin t).data.take N))).length
            = (pyRstripL ((sentenceJoin t).data.take N)).length := rfl
        have he : ("..." : String).length = 3 := rfl
        have h3 := pyRstripL_length_le ((sentenceJoin t).data.take N)
        have h4 : ((sentenceJoin t).data.take N).length ≤ N :=
          List.length_take_le N (sentenceJoin t).data
        omega
      · rw [if_neg h2]
        omega
  · intro h
    have h1 : t ≠ "" := by
      intro ht
      rw [ht, sentenceJoin_empty] at h
      simp at h
    unfold summarize_text
    rw [if_neg h1, if_pos h]

/-- Claim C3 witness: at the concrete truncating input both conjuncts of the
amended claim are realized. -/
theorem C3_witness :
    (summarize_text ("ab      cd") 5).length ≤ 5 + 3
    ∧ summarize_text ("ab      cd") 5 =
        String.mk (pyRstripL ((sentenceJoin ("ab      cd")).data.take 5)) ++ "..." :=
  ⟨(C3_summarizer_bound ("ab      cd") 5).1,
   (C3_summarizer_bound ("ab      cd") 5).2 (by decide)⟩

/-- The normalized rational mkRat n d is the exact value of the division
n / d. -/
theorem mkRat_nat_eq_div (n d : ℕ) : mkRat n d = (n : ℚ) / (d : ℚ) := by
  rw [Rat.mkRat_eq_divInt, Rat.divInt_eq_div]
  push_cast
  ring

/-- Claim C4: the similarity score is symmetric, lies in the closed interval
from 0 to 1, and is exactly 0 whenever either side tokenizes to the empty
set. -/
theorem C4_similarity (a b : String) :
    simple_similarity a b = simple_similarity b a
    ∧ 0 ≤ simple_similarity a b
    ∧ simple_similarity a b ≤ 1
    ∧ ((text_to_tokens a = ∅ ∨ text_to_tokens b = ∅) →
        simple_similarity a b = 0) := by
  refine ⟨?_, ?_, ?_, ?_⟩
  · unfold simple_similarity
    by_cases h : text_to_tokens a = ∅ ∨ text_to_tokens b = ∅
    · rw [if_pos h, if_pos h.symm]
    · rw [if_neg h, if_neg (fun hc => h hc.symm)]
      rw [Finset.inter_comm, add_comm]
  · unfold simple_similarity
    by_cases h : text_to_tokens a = ∅ ∨ text_to_tokens b = ∅
    · rw [if_pos h]
    · rw [if_neg h, mkRat_nat_eq_div]
      positivity
  · unfold simple_similarity
    by_cases h : text_to_tokens a = ∅ ∨ text_to_tokens b = ∅
    · rw [if_pos h]
      norm_num
    · rw [if_neg h, mkRat_nat_eq_div]
      push_neg at h
      have ha : 0 < (text_to_tokens a).card :=
        Finset.card_pos.mpr (Finset.nonempty_iff_ne_empty.mpr h.1)
      have hpos : (0 : ℚ) <
          (((text_to_tokens a).card + (text_to_tokens b).card : ℕ) : ℚ) := by
        exact_mod_cast Nat.add_pos_left ha (text_to_tokens b).card
      rw [div_le_one hpos]
      exact Nat.cast_le.mpr
        ((Finset.card_le_card Finset.inter_subset_left).trans
          (Nat.le_add_right _ _))
  · intro h
    unfold simple_similarity
    rw [if_pos h]

/-- Claim C4 witness: the empty string tokenizes to the empty set and its
similarity against a non-empty text is exactly 0. -/
theorem C4_witness : simple_similarity "" ("cats") = 0 :=
  (C4_similarity "" ("cats")).2.2.2 (Or.inl (by decide))

/-- Claim C10: the similarity score never exceeds one half, because the
intersection is at most the smaller of the two token sets while the
denominator is the sum of both sizes. -/
theorem C10_similarity_half (a b : String) :
    simple_similarity a b ≤ 1 / 2 := by
  unfold simple_similarity
  by_cases h : text_to_tokens a = ∅ ∨ text_to_tokens b = ∅
  · rw [if_pos h]
    norm_num
  · rw [if_neg h, mkRat_nat_eq_div]
    push_neg at h
    have ha : 0 < (text_to_tokens a).card :=
      Finset.card_pos.mpr (Finset.nonempty_iff_ne_empty.mpr h.1)
    have hpos : (0 : ℚ) <
        (((text_to_tokens a).card + (text_to_tokens b).card : ℕ) : ℚ) := by
      exact_mod_cast Nat.add_pos_left ha (text_to_tokens b).card
    rw [div_le_iff₀ hpos]
    have h1 : ((text_to_tokens a ∩ text_to_tokens b).card : ℚ) ≤
        ((text_to_tokens a).card : ℚ) :=
      Nat.cast_le.mpr (Finset.card_le_card Finset.inter_subset_left)
    have h2 : ((text_to_tokens a ∩ text_to_tokens b).card : ℚ) ≤
        ((text_to_tokens b).card : ℚ) :=
      Nat.cast_le.mpr (Finset.card_le_card Finset.inter_subset_right)
    push_cast
    linarith

/-- Claim C1, counterexample: in a run whose fetched articles are all seen
already, run_rss_to_telegram returns before the loop and the ledger is not
persisted at all — the save count is 0, not 1. -/
theorem C1_counterexample :
    noUnseenRun.saveCount = 0 ∧ ¬ (noUnseenRun.saveCount = 1) := by
  decide

/-- Claim C1 (amended): the ledger is persisted exactly once, after the loop,
in every run with at least one unseen entry, regardless of how many entries
were delivered (including zero, when maxPerRun is 0); a run with no unseen
entries returns early and never persists. -/
theorem C1_save_once (sink : String → Bool) (ts : Nat → String) (m : Nat)
    (state : PyState) (allNew : List Article) :
    (unseenOf state allNew = [] →
      (run_rss_to_telegram sink ts m state allNew).saveCount = 0)
    ∧ (unseenOf state allNew ≠ [] →
      (run_rss_to_telegram sink ts m state allNew).saveCount = 1) := by
  constructor <;> intro h <;> rw [run_saveCount] <;> simp [h]

/-- Claim C1 witness: the two branches of the amended claim at concrete
inputs — an all-seen fetch saves zero times, a fetch with unseen entries
saves exactly once. -/
theorem C1_witness : noUnseenRun.saveCount = 0 ∧ scenarioRun.saveCount = 1 :=
  ⟨(C1_save_once alwaysOkSink constClock 5 ⟨["x"], []⟩
      [⟨"x", "T", "", "body.", "2024"⟩]).1 (by decide),
   (C1_save_once alwaysOkSink constClock 2 ⟨[], []⟩
      [scenA1, scenA2, scenA3]).2 (by decide)⟩

/-- Claim C2: at the failing input (one fresh entry, sink reports failure)
the code nevertheless adds the id to the seen set, appends the history
record and counts the delivery — the entry is marked seen regardless of the
sink result, contradicting the claimed only-on-success recording. -/
theorem C2_code_behavior :
    failRun.sinkResults = [false]
    ∧ ("a1") ∈ failRun.finalSeen
    ∧ failRun.finalHistory.length = 1
    ∧ failRun.sentCount = 1 := by
  decide

/-- Claim C5: the context selector sorts the (score, record) pairs by score
descending (the sorted list is a permutation of the pairs and pairwise
descending), ties keep the relative input order (the score-c sublist is
unchanged for every c), the selector keeps the top topK pairs and then drops
the non-positive scores, and repeated calls return identical output. -/
theorem C5_context_selector (a : Article) (history : List HistoryRecord)
    (topK : Nat) :
    List.Perm (sortDescBy Prod.fst (scoredPairs a history))
      (scoredPairs a history)
    ∧ List.Pairwise (fun x y => y.1 ≤ x.1)
      (sortDescBy Prod.fst (scoredPairs a history))
    ∧ (∀ c : ℚ,
        (sortDescBy Prod.fst (scoredPairs a history)).filter
            (fun x => decide (x.1 = c)) =
          (scoredPairs a history).filter (fun x => decide (x.1 = c)))
    ∧ selectContext a history topK =
        (((sortDescBy Prod.fst (scoredPairs a history)).take topK).filter
          (fun x => decide ((0 : ℚ) < x.1))).map Prod.snd
    ∧ selectContext a history topK = selectContext a history topK := by
  exact ⟨sortDescBy_perm Prod.fst (scoredPairs a history),
    sortDescBy_pairwise Prod.fst (scoredPairs a history),
    fun c => sortDescBy_filter_key Prod.fst c (scoredPairs a history),
    rfl, rfl⟩

/-- Claim C6: the composer output is never longer than the base summary plus
353 characters, and equals the base summary exactly when the context is
empty, when the context has no non-empty titles, or when the budget test
fails. -/
theorem C6_composer (a : Article) (ctx : List HistoryRecord) :
    (compose a ctx).length ≤ (summarize_text a.summary 300).length + 353
    ∧ (ctx = [] → compose a ctx = summarize_text a.summary 300)
    ∧ (relTitles ctx = [] → compose a ctx = summarize_text a.summary 300)
    ∧ (¬ ((summarize_text a.summary 300).length + (suffixOf ctx).length + 3
          < 350) →
        compose a ctx = summarize_text a.summary 300) := by
  unfold compose
  by_cases h1 : ctx = []
  · rw [if_pos h1]
    exact ⟨by omega, fun _ => rfl, fun _ => rfl, fun _ => rfl⟩
  · rw [if_neg h1]
    by_cases h2 : relTitles ctx = []
    · rw [if_pos h2]
      exact ⟨by omega, fun hc => absurd hc h1, fun _ => rfl, fun _ => rfl⟩
    · rw [if_neg h2]
      by_cases h3 : (summarize_text a.summary 300).length +
          (suffixOf ctx).length + 3 < 350
      · rw [if_pos h3]
        refine ⟨?_, fun hc => absurd hc h1, fun hc => absurd hc h2,
          fun hc => absurd h3 hc⟩
        rw [String.length_append, String.length_append]
        have hm : (" | " : String).length = 3 := rfl
        omega
      · rw [if_neg h3]
        exact ⟨by omega, fun hc => absurd hc h1, fun hc => absurd hc h2,
          fun _ => rfl⟩

set_option maxRecDepth 8000 in
/-- Claim C6 witness: the three return-base branches realized at concrete
inputs — empty context, a context with only an empty title, and a context
whose 400-character title makes the budget test fail. -/
theorem C6_witness :
    compose artW [] = summarize_text artW.summary 300
    ∧ compose artW [recNoTitle] = summarize_text artW.summary 300
    ∧ compose artW [recLongTitle] = summarize_text artW.summary 300 :=
  ⟨(C6_composer artW []).2.1 rfl,
   (C6_composer artW [recNoTitle]).2.2.1 (by decide),
   (C6_composer artW [recLongTitle]).2.2.2 (by decide)⟩

/-- Claim C7: the scheduler delivers the first maxPerRun entries of the
stable descending sort of the unseen list by the raw published string (a
permutation of unseen, pairwise descending, equal-key sublists in input
order), delivers and records at most maxPerRun entries, and in the concrete
maxPerRun = 2 scenario with three unseen entries exactly the two greatest by
string order are delivered while the third id stays absent from the seen
set. -/
theorem C7_scheduler (sink : String → Bool) (ts : Nat → String) (m : Nat)
    (state : PyState) (allNew : List Article) :
    (run_rss_to_telegram sink ts m state allNew).delivered =
      (sortDescBy pubKey (unseenOf state allNew)).take m
    ∧ (run_rss_to_telegram sink ts m state allNew).sentCount ≤ m
    ∧ (run_rss_to_telegram sink ts m state allNew).finalHistory.length =
        state.articles.length +
          (run_rss_to_telegram sink ts m state allNew).delivered.length
    ∧ (run_rss_to_telegram sink ts m state allNew).finalSeen =
        state.seen_ids.toFinset ∪
          ((run_rss_to_telegram sink ts m state allNew).delivered.map
            Article.id).toFinset
    ∧ List.Perm (sortDescBy pubKey (unseenOf state allNew))
        (unseenOf state allNew)
    ∧ List.Pairwise (fun x y => pubKey y ≤ pubKey x)
        (sortDescBy pubKey (unseenOf state allNew))
    ∧ (∀ c : List Char,
        (sortDescBy pubKey (unseenOf state allNew)).filter
            (fun x => decide (pubKey x = c)) =
          (unseenOf state allNew).filter (fun x => decide (pubKey x = c)))
    ∧ (scenarioRun.delivered.map Article.id = [("2"), ("3")]
        ∧ ("1") ∉ scenarioRun.finalSeen
        ∧ ("2") ∈ scenarioRun.finalSeen
        ∧ ("3") ∈ scenarioRun.finalSeen) := by
  refine ⟨run_delivered_eq sink ts m state allNew, ?_, ?_, ?_,
    sortDescBy_perm pubKey (unseenOf state allNew),
    sortDescBy_pairwise pubKey (unseenOf state allNew),
    fun c => sortDescBy_filter_key pubKey c (unseenOf state allNew),
    by decide⟩
  · rw [run_count_eq]
    exact List.length_take_le m _
  · rw [run_history_length, run_delivered_eq]
  · rw [run_seen_eq, run_delivered_eq]

/-- Claim C8: no delivered article of a run was seen at the start of the
run; and whenever a run has recorded every fetched id in its final seen set,
a second run over the same fetched articles (starting from the saved state)
delivers nothing. -/
theorem C8_idempotence (sink sink2 : String → Bool) (ts ts2 : Nat → String)
    (m m2 : Nat) (state : PyState) (allNew : List Article) :
    (∀ x, x ∈ (run_rss_to_telegram sink ts m state allNew).delivered →
      x.id ∉ state.seen_ids.toFinset)
    ∧ ((∀ a ∈ allNew,
          a.id ∈ (run_rss_to_telegram sink ts m state allNew).finalSeen) →
        (run_rss_to_telegram sink2 ts2 m2
            ⟨(run_rss_to_telegram sink ts m state allNew).finalSeen.toList,
             (run_rss_to_telegram sink ts m state allNew).finalHistory⟩
            allNew).sentCount = 0
        ∧ (run_rss_to_telegram sink2 ts2 m2
            ⟨(run_rss_to_telegram sink ts m state allNew).finalSeen.toList,
             (run_rss_to_telegram sink ts m state allNew).finalHistory⟩
            allNew).delivered = []) := by
  constructor
  · intro x hx
    rw [run_delivered_eq] at hx
    have hx2 : x ∈ sortDescBy pubKey (unseenOf state allNew) :=
      List.mem_of_mem_take hx
    have hx3 : x ∈ unseenOf state allNew :=
      ((sortDescBy_perm pubKey (unseenOf state allNew)).mem_iff).mp hx2
    exact of_decide_eq_true (List.mem_filter.mp hx3).2
  · intro h
    have hu : unseenOf
        (⟨(run_rss_to_telegram sink ts m state allNew).finalSeen.toList,
          (run_rss_to_telegram sink ts m state allNew).finalHistory⟩ : PyState)
        allNew = [] := by
      unfold unseenOf
      rw [List.filter_eq_nil_iff]
      intro a ha
      simp [Finset.toList_toFinset, h a ha]
    constructor
    · rw [run_count_eq, hu]
      simp [sortDescBy]
    · rw [run_delivered_eq, hu]
      simp [sortDescBy]

/-- Claim C8 witness: the delivered article of a concrete first run was
unseen at its start, and a second run from the persisted state of that first
run delivers nothing. -/
theorem C8_witness :
    c8Article.id ∉ (⟨[], []⟩ : PyState).seen_ids.toFinset
    ∧ (run_rss_to_telegram alwaysOkSink constClock 5
        ⟨c8FirstRun.finalSeen.toList, c8FirstRun.finalHistory⟩
        [c8Article]).sentCount = 0
    ∧ (run_rss_to_telegram alwaysOkSink constClock 5
        ⟨c8FirstRun.finalSeen.toList, c8FirstRun.finalHistory⟩
        [c8Article]).delivered = [] := by
  refine ⟨(C8_idempotence alwaysOkSink alwaysOkSink constClock constClock 5 5
      ⟨[], []⟩ [c8Article]).1 c8Article (by decide), ?_, ?_⟩
  · exact ((C8_idempotence alwaysOkSink alwaysOkSink constClock constClock 5 5
      ⟨[], []⟩ [c8Article]).2 (by decide)).1
  · exact ((C8_idempotence alwaysOkSink alwaysOkSink constClock constClock 5 5
      ⟨[], []⟩ [c8Article]).2 (by decide)).2

/-- Claim C9, counterexample: an existing state file holding the serialized
empty ledger also loads to the empty ledger, so the empty ledger is not
returned exactly when no state file exists — existence of a file does not
preclude an empty result. -/
theorem C9_counterexample :
    load_state (some emptyLedgerJSON) jsonDecodeModel = Except.ok ⟨[], []⟩
    ∧ (some emptyLedgerJSON) ≠ (none : Option String) := by
  constructor
  · rfl
  · simp

/-- Claim C9 (amended): loading returns the empty ledger whenever no state
file exists; when a file exists its decoded content is returned as-is (which
may itself be the empty ledger), and a decode failure — an unreadable or
corrupt file — propagates as an error instead of fabricating a new or
partial ledger. -/
theorem C9_load_state (decode : String → Except String PyState)
    (file : Option String) :
    (file = none → load_state file decode = Except.ok ⟨[], []⟩)
    ∧ (∀ s : String, file = some s → load_state file decode = decode s) := by
  constructor
  · intro h
    rw [h]
    rfl
  · intro s h
    rw [h]
    rfl

/-- Claim C9 witness: loading with no file yields the empty ledger, and
loading an unparsable file yields exactly the decode error. -/
theorem C9_witness :
    load_state none jsonDecodeModel = Except.ok ⟨[], []⟩
    ∧ load_state (some ("bad")) jsonDecodeModel = jsonDecodeModel ("bad") :=
  ⟨(C9_load_state jsonDecodeModel none).1 rfl,
   (C9_load_state jsonDecodeModel (some ("bad"))).2 ("bad") rfl⟩

end RSSTel
